import Mathlib

/-!
Verification of the period-aggregation engine of the dashboard-analytics
repository (`dashboard_charts/analytics.py` and `dashboard_charts/services.py`).

Modelling conventions, chosen to mirror the Python/pandas source:

* Strings are Lean `String`s; all string manipulation is defined over the
  underlying `List Char` so that every definition evaluates inside the kernel.
  Python `str.lower`/`str.upper` are modelled for ASCII letters (all status
  values, column names and period labels in scope are ASCII).
* A pandas `Timestamp` is modelled as its day number (days since 1970-01-01,
  as an `Int`).  Every timestamp the engine constructs is a midnight, so day
  granularity is exact.  `pd.Timestamp.min` falls at 1677-09-21 00:12:43, a
  fraction *after* midnight of that day; since no constructed timestamp can
  fall strictly between that instant and the next midnight, the model uses the
  day number of 1677-09-21 for `Timestamp.min` and the order of all occurring
  values is preserved.  Constructing an out-of-bounds timestamp raises in
  pandas; the model returns `none`, which the per-label exception handler of
  `_sort_periods_chronologically` turns into the `Timestamp.min` sort key.
* `float` arithmetic of the win-rate / mean metrics is modelled over `ℚ`, and
  Python `round(x, 2)` (banker's rounding) as round-half-to-even over `ℚ`.
* A `DataFrame` is modelled as a column-presence record plus a list of rows;
  a missing cell (pandas `NaN`/`NaT`) is `Option.none`.  Accessing a column
  that is not present raises `KeyError` in pandas; the model returns
  `Except.error`.
-/

/-- Python whitespace as stripped by `str.strip` (ASCII subset). -/
def isPySpace (c : Char) : Bool :=
  c = ' ' || c = '\t' || c = '\n' || c = '\r' || c = '\x0b' || c = '\x0c'

/-- `str.strip`: drop leading and trailing whitespace. -/
def lcTrim (l : List Char) : List Char :=
  ((l.dropWhile isPySpace).reverse.dropWhile isPySpace).reverse

/-- ASCII lower-casing of one character (Python `str.lower` on the ASCII range). -/
def asciiLower (c : Char) : Char :=
  match c with
  | 'A' => 'a' | 'B' => 'b' | 'C' => 'c' | 'D' => 'd' | 'E' => 'e' | 'F' => 'f'
  | 'G' => 'g' | 'H' => 'h' | 'I' => 'i' | 'J' => 'j' | 'K' => 'k' | 'L' => 'l'
  | 'M' => 'm' | 'N' => 'n' | 'O' => 'o' | 'P' => 'p' | 'Q' => 'q' | 'R' => 'r'
  | 'S' => 's' | 'T' => 't' | 'U' => 'u' | 'V' => 'v' | 'W' => 'w' | 'X' => 'x'
  | 'Y' => 'y' | 'Z' => 'z' | c => c

/-- ASCII upper-casing of one character (Python `str.upper` on the ASCII range). -/
def asciiUpper (c : Char) : Char :=
  match c with
  | 'a' => 'A' | 'b' => 'B' | 'c' => 'C' | 'd' => 'D' | 'e' => 'E' | 'f' => 'F'
  | 'g' => 'G' | 'h' => 'H' | 'i' => 'I' | 'j' => 'J' | 'k' => 'K' | 'l' => 'L'
  | 'm' => 'M' | 'n' => 'N' | 'o' => 'O' | 'p' => 'P' | 'q' => 'Q' | 'r' => 'R'
  | 's' => 'S' | 't' => 'T' | 'u' => 'U' | 'v' => 'V' | 'w' => 'W' | 'x' => 'X'
  | 'y' => 'Y' | 'z' => 'Z' | c => c

/-- Python `str.lower` (ASCII). -/
def pyLower (s : String) : String := ⟨s.data.map asciiLower⟩

/-- `str.replace(c, repl)` for a single-character pattern, the only shape the
source uses (`period_str.replace('Q', '-Q')`). -/
def lcReplaceChar (c : Char) (repl : List Char) : List Char → List Char
  | [] => []
  | x :: xs => if x = c then repl ++ lcReplaceChar c repl xs
               else x :: lcReplaceChar c repl xs

/-- `str.split('-Q')`: split on the exact two-character separator, left to
right, non-overlapping, exactly as Python `str.split` with a `"-Q"` argument. -/
def splitDashQ : List Char → List (List Char)
  | [] => [[]]
  | '-' :: 'Q' :: rest => [] :: splitDashQ rest
  | c :: rest =>
    match splitDashQ rest with
    | [] => [[c]]
    | p :: ps => (c :: p) :: ps

/-- Numeric value of a list of decimal digits. -/
def digitsVal (l : List Char) : Int :=
  l.foldl (fun acc c => acc * 10 + (c.toNat - '0'.toNat : Nat)) 0

/-- Python `int(str)`: optional surrounding whitespace, optional sign, a
nonempty run of decimal digits; anything else raises `ValueError` (`none`).
(Underscore digit separators are out of the modelled subset.) -/
def pyInt (l : List Char) : Option Int :=
  let t := lcTrim l
  match t with
  | '-' :: ds => if ds ≠ [] ∧ ds.all Char.isDigit then some (-(digitsVal ds)) else none
  | '+' :: ds => if ds ≠ [] ∧ ds.all Char.isDigit then some (digitsVal ds) else none
  | ds => if ds ≠ [] ∧ ds.all Char.isDigit then some (digitsVal ds) else none

/-- Split a character list into maximal whitespace-free words (the effect of a
whitespace run in a `strptime` format string). -/
def lcWordsAux : List Char → List Char → List (List Char)
  | [], acc => if acc = [] then [] else [acc.reverse]
  | c :: rest, acc =>
    if isPySpace c then
      (if acc = [] then lcWordsAux rest [] else acc.reverse :: lcWordsAux rest [])
    else lcWordsAux rest (c :: acc)

def lcWords (l : List Char) : List (List Char) := lcWordsAux l []

/-- Days since 1970-01-01 of a proleptic-Gregorian civil date (the standard
era-based civil-from-days algorithm; all divisions below act on nonnegative
operands for every year in the pandas `Timestamp` range, where Lean integer
division agrees with C truncation). -/
def daysFromCivil (y m d : Int) : Int :=
  let yy := y - (if m ≤ 2 then 1 else 0)
  let era := (if 0 ≤ yy then yy else yy - 399) / 400
  let yoe := yy - era * 400
  let doy := (153 * (m + (if 2 < m then -3 else 9)) + 2) / 5 + d - 1
  let doe := yoe * 365 + yoe / 4 - yoe / 100 + doy
  era * 146097 + doe - 719468

/-- Inverse of `daysFromCivil`: the civil date of a day number. -/
def civilFromDays (z0 : Int) : Int × Int × Int :=
  let z := z0 + 719468
  let era := (if 0 ≤ z then z else z - 146096) / 146097
  let doe := z - era * 146097
  let yoe := (doe - doe / 1460 + doe / 36524 - doe / 146096) / 365
  let y := yoe + era * 400
  let doy := doe - (365 * yoe + yoe / 4 - yoe / 100)
  let mp := (5 * doy + 2) / 153
  let d := doy - (153 * mp + 2) / 5 + 1
  let m := mp + (if mp < 10 then 3 else -9)
  (y + (if m ≤ 2 then 1 else 0), m, d)

/-- Day number standing for `pd.Timestamp.min` (see the module comment). -/
def tsMinDay : Int := daysFromCivil 1677 9 21

/-- Day number of `pd.Timestamp.max`'s date, 2262-04-11. -/
def tsMaxDay : Int := daysFromCivil 2262 4 11

/-- The pandas timestamp-bounds gate: a constructed midnight outside
`[Timestamp.min, Timestamp.max]` raises `OutOfBoundsDatetime`. -/
def tsGate (v : Int) : Option Int :=
  if tsMinDay < v ∧ v ≤ tsMaxDay then some v else none

/-- `pd.Timestamp(year=y, month=m, day=1)`: validates the month and the
timestamp bounds; a failure raises (here: `none`). -/
def mkTs (y m : Int) : Option Int :=
  if 1 ≤ m ∧ m ≤ 12 then tsGate (daysFromCivil y m 1) else none

/-- The quarter branch of `_sort_periods_chronologically`, verbatim:
`parts = period_str.replace('Q', '-Q').split('-Q')`, then
`int(parts[0])`, `int(parts[1])`, `month = (quarter - 1) * 3 + 1`,
`pd.Timestamp(year=year, month=month, day=1)`.  Any raised exception
(`ValueError` from `int`, out-of-range month, out-of-bounds timestamp,
a missing `parts[1]`) is `none`. -/
def parseQuarterLabel (l : List Char) : Option Int :=
  match splitDashQ (lcReplaceChar 'Q' ['-', 'Q'] l) with
  | p0 :: p1 :: _ =>
    match pyInt p0, pyInt p1 with
    | some year, some quarter => mkTs year ((quarter - 1) * 3 + 1)
    | _, _ => none
  | _ => none

/-- The week branch fallback of `_sort_periods_chronologically`:
`pd.Period(period_str, freq='W')` rejects the week-label shapes in scope
(modelled as failing), so the code takes `year_part = period_str[:4]`,
`week_part = digits of period_str[4:]`, and parses
`f"{year_part}-W{week_part.zfill(2)}-1"` with format `%Y-W%W-%w`.
`%Y` here matches exactly four digits, `%W` a week number 0..53 of at most two
digits, and the result is the Monday of that `%W`-week (CPython semantics,
including the week-0 quirk where the date may fall before the year's first
Monday). -/
def parseWeekLabel (l : List Char) : Option Int :=
  let yearPart := l.take 4
  let weekDigits := (l.drop 4).filter Char.isDigit
  if yearPart.length = 4 ∧ yearPart.all Char.isDigit ∧ weekDigits.length ≤ 2 then
    let y := digitsVal yearPart
    let w := digitsVal weekDigits
    if w ≤ 53 then
      let jan1 := daysFromCivil y 1 1
      let fw := (jan1 + 3) % 7
      let week0len := (7 - fw) % 7
      let julian := if w = 0 then 1 - fw else 1 + week0len + 7 * (w - 1)
      tsGate (jan1 + julian - 1)
    else none
  else none

/-- English month abbreviations, position = month - 1 (strptime `%b`,
matched case-insensitively). -/
def monthAbbrevs : List (List Char) :=
  ["jan".data, "feb".data, "mar".data, "apr".data, "may".data, "jun".data,
   "jul".data, "aug".data, "sep".data, "oct".data, "nov".data, "dec".data]

/-- English full month names (strptime `%B`, matched case-insensitively). -/
def monthFulls : List (List Char) :=
  ["january".data, "february".data, "march".data, "april".data, "may".data,
   "june".data, "july".data, "august".data, "september".data, "october".data,
   "november".data, "december".data]

/-- Index of a (lower-cased) word in a month-name table, as a month number. -/
def monthNumIn (table : List (List Char)) (word : List Char) : Option Int :=
  match table.indexOf? (word.map asciiLower) with
  | some i => some ((i : Nat) + 1)
  | none => none

/-- strptime with format `"%b %Y"` or `"%B %Y"`: two whitespace-separated
words, a month name and an exactly-four-digit year, then
`pd.Timestamp` bounds. -/
def parseMonthNameLabel (table : List (List Char)) (l : List Char) : Option Int :=
  match lcWords l with
  | [mw, yw] =>
    if yw.length = 4 ∧ yw.all Char.isDigit then
      match monthNumIn table mw with
      | some m => mkTs (digitsVal yw) m
      | none => none
    else none
  | _ => none

/-- `str.split('-')` (single-character separator). -/
def splitDash : List Char → List (List Char)
  | [] => [[]]
  | '-' :: rest => [] :: splitDash rest
  | c :: rest =>
    match splitDash rest with
    | [] => [[c]]
    | p :: ps => (c :: p) :: ps

/-- The month branch of `_sort_periods_chronologically`
(`pd.Period(period_str, freq='M')`, with `pd.to_datetime(period_str,
format='%Y-%m')` as its inner fallback): modelled for four-digit-year
`YYYY-MM` / `YYYY-M` labels; other shapes accepted only by pandas'
mixed-format inference (such as two-digit years) are out of the modelled
subset and fall to the per-label failure path. -/
def parseMonthLabel (l : List Char) : Option Int :=
  match splitDash l with
  | [yw, mw] =>
    if yw.length = 4 ∧ yw.all Char.isDigit ∧ mw ≠ [] ∧ mw.length ≤ 2 ∧
        mw.all Char.isDigit then
      mkTs (digitsVal yw) (digitsVal mw)
    else none
  | _ => none

/-- The free-form `pd.to_datetime(period_str)` last resort.  The labels it can
parse beyond the explicit formats above (ISO dates, day-month-year shapes,
strings resolved against the current date, ...) are out of the modelled
subset; on the labels appearing in the claims (such as `"garbage"`) pandas
fails as well, and the model returns `none` uniformly. -/
def parseFreeform (_l : List Char) : Option Int := none

/-- One label's parse in `_sort_periods_chronologically`, after
`str(period).strip()`: the branch on `'Q' in s`, then `'W' in s.upper()`,
then `'-' in s and len(s) <= 7`, then the `%b %Y` / `%B %Y` / free-form
chain.  `none` means every attempt raised, which the per-label handler maps
to `pd.Timestamp.min`. -/
def parsePeriodLabel (l : List Char) : Option Int :=
  if l.contains 'Q' then parseQuarterLabel l
  else if l.any (fun c => asciiUpper c = 'W') then parseWeekLabel l
  else if l.contains '-' ∧ l.length ≤ 7 then parseMonthLabel l
  else
    match parseMonthNameLabel monthAbbrevs l with
    | some v => some v
    | none =>
      match parseMonthNameLabel monthFulls l with
      | some v => some v
      | none => parseFreeform l

/-- The chronological sort key `_sort_periods_chronologically` assigns to a
label: its parsed timestamp, or `pd.Timestamp.min` when parsing fails. -/
def periodSortKey (s : String) : Int :=
  (parsePeriodLabel (lcTrim s.data)).getD tsMinDay

/-- `AdAnalytics._sort_periods_chronologically` on a list of label strings:
each label is paired with its parsed timestamp (or `Timestamp.min` on
failure) and the pairs are sorted by timestamp with Python's stable sort, the
original strings being returned.  (The outer `except` returning the unsorted
input guards against failures that cannot occur once every label's parse is
totalised, so it has no counterpart here.) -/
def sortPeriods (ps : List String) : List String :=
  List.insertionSort (fun a b => periodSortKey a ≤ periodSortKey b) ps

/-- Round half to even to an integer (Python `round` on `ℚ`, modelling float
banker's rounding). -/
def roundHalfEven (q : ℚ) : Int :=
  if q - ⌊q⌋ < 1/2 then ⌊q⌋
  else if 1/2 < q - ⌊q⌋ then ⌊q⌋ + 1
  else if ⌊q⌋ % 2 = 0 then ⌊q⌋ else ⌊q⌋ + 1

/-- Python `round(x, 2)`. -/
def round2 (q : ℚ) : ℚ := (roundHalfEven (q * 100) : ℚ) / 100

/-- One source-table row.  A `none` field is a pandas missing value
(`NaN`/`NaT`); dates are stored as civil dates, numerics as `ℚ`. -/
structure Row where
  launchDate : Option (Int × Int × Int)
  status : Option String
  strategist : Option String
  editorDesigner : Option String
  product : Option String
  adType : Option String
  format : Option String
  launchMonth : Option String
  launchYYWW : Option String
  adTimeToReady : Option ℚ
  editingDuration : Option ℚ
deriving DecidableEq

/-- Which columns the DataFrame carries (`'X' in df.columns`). -/
structure Cols where
  hasLaunchDate : Bool
  hasStatus : Bool
  hasStrategist : Bool
  hasEditorDesigner : Bool
  hasProduct : Bool
  hasType : Bool
  hasFormat : Bool
  hasLaunchMonth : Bool
  hasLaunchYYWW : Bool
  hasAdTime : Bool
  hasEditingDuration : Bool
deriving DecidableEq

/-- The engine's DataFrame: column presence plus rows. -/
structure Table where
  cols : Cols
  rows : List Row
deriving DecidableEq

/-- `df['Status'].str.lower() == v` on one row: a missing status compares
unequal (pandas `NaN` propagates to `False`). -/
def statusIs (v : String) (r : Row) : Bool :=
  match r.status with
  | some s => pyLower s = v
  | none => false

/-- Count of rows whose lower-cased Status equals `v`. -/
def countStatus (rows : List Row) (v : String) : Nat :=
  (rows.filter (statusIs v)).length

/-- `NotionService.calculate_win_rate` (also duplicated verbatim in
`GoogleSheetService`): empty frame gives 0; otherwise the case-insensitive
Winner/Loser/Launched counts are taken from the Status column (raising
`KeyError` when the column is absent), and the result is
`round((winners / total) * 100, 2)` with 0 for a zero denominator. -/
def calculate_win_rate (t : Table) : Except String ℚ :=
  if t.rows.isEmpty then .ok 0
  else if t.cols.hasStatus then
    let winners := countStatus t.rows "winner"
    let losers := countStatus t.rows "loser"
    let launched := countStatus t.rows "launched"
    let total := winners + losers + launched
    if total = 0 then .ok 0
    else .ok (round2 ((winners : ℚ) / (total : ℚ) * 100))
  else .error "KeyError: Status"

/-- `Launch Date.dt.to_period('M').astype(str)`: `"YYYY-MM"`. -/
def monthPeriodStr (d : Int × Int × Int) : String :=
  let y := (d.1.toNat : Nat)
  let m := (d.2.1.toNat : Nat)
  ⟨[Nat.digitChar (y / 1000 % 10), Nat.digitChar (y / 100 % 10),
    Nat.digitChar (y / 10 % 10), Nat.digitChar (y % 10), '-',
    Nat.digitChar (m / 10 % 10), Nat.digitChar (m % 10)]⟩

/-- `Launch Date.dt.to_period('Q').astype(str)`: `"YYYYQn"`. -/
def quarterPeriodStr (d : Int × Int × Int) : String :=
  let y := (d.1.toNat : Nat)
  let q := ((d.2.1.toNat : Nat) + 2) / 3
  ⟨[Nat.digitChar (y / 1000 % 10), Nat.digitChar (y / 100 % 10),
    Nat.digitChar (y / 10 % 10), Nat.digitChar (y % 10), 'Q',
    Nat.digitChar (q % 10)]⟩

/-- `"YYYY-MM-DD"` of a day number (helper for the weekly period string). -/
def dayStr (z : Int) : List Char :=
  let c := civilFromDays z
  let y := (c.1.toNat : Nat)
  let m := (c.2.1.toNat : Nat)
  let d := (c.2.2.toNat : Nat)
  [Nat.digitChar (y / 1000 % 10), Nat.digitChar (y / 100 % 10),
   Nat.digitChar (y / 10 % 10), Nat.digitChar (y % 10), '-',
   Nat.digitChar (m / 10 % 10), Nat.digitChar (m % 10), '-',
   Nat.digitChar (d / 10 % 10), Nat.digitChar (d % 10)]

/-- `Launch Date.dt.to_period('W').astype(str)`: the enclosing Monday-to-Sunday
week (pandas `W-SUN`) printed as `"YYYY-MM-DD/YYYY-MM-DD"`. -/
def weekPeriodStr (d : Int × Int × Int) : String :=
  let z := daysFromCivil d.1 d.2.1 d.2.2
  let dow := (z + 3) % 7
  let start := z - dow
  ⟨dayStr start ++ '/' :: dayStr (start + 6)⟩

/-- First-seen-order distinct values (helper: `seen` are the values already
emitted). -/
def uniqueFirstAux {α : Type} [DecidableEq α] (seen : List α) : List α → List α
  | [] => []
  | a :: l => if a ∈ seen then uniqueFirstAux seen l
              else a :: uniqueFirstAux (a :: seen) l

/-- First-seen-order distinct values: pandas `Series.unique`. -/
def uniqueFirst {α : Type} [DecidableEq α] (l : List α) : List α :=
  uniqueFirstAux [] l

/-- Code-point lexicographic order on character lists (Python / pandas string
comparison). -/
def lcLe : List Char → List Char → Bool
  | [], _ => true
  | _ :: _, [] => false
  | a :: xs, b :: ys =>
    if a.toNat < b.toNat then true
    else if b.toNat < a.toNat then false
    else lcLe xs ys

/-- Python string `<=` as pandas sorts group keys. -/
def strLe (a b : String) : Prop := lcLe a.data b.data = true

instance : DecidableRel strLe := fun a b => by unfold strLe; infer_instance

/-- `df.groupby(col)` key set: distinct non-missing key values in ascending
string order (pandas sorts group keys and drops missing ones). -/
def groupbyKeys (rows : List Row) (key : Row → Option String) : List String :=
  List.insertionSort (fun a b => strLe a b) (uniqueFirst (rows.filterMap key))

/-- The sub-frame of one group. -/
def groupRows (rows : List Row) (key : Row → Option String) (k : String) : List Row :=
  rows.filter (fun r => key r = some k)

/-- Dictionary read `result[p]` (always a hit in the uses below: the looked-up
labels are a permutation of the inserted keys). -/
def lookupD {α : Type} (pairs : List (String × α)) (p : String) (d : α) : α :=
  match pairs.find? (fun q => q.1 = p) with
  | some q => q.2
  | none => d

/-- The `'Period'` column assignment shared by the rate / time-series entry
points (`get_win_rate_by_period`, `get_win_rate_by_strategist`,
`get_win_rate_by_product`, `get_win_rate_by_ad_type`,
`get_avg_production_time`, `get_avg_editing_time`, `get_creatives_volume`):
week prefers the precomputed `Launch YY-WW` column, month prefers
`Launch Month`, quarter always derives from `Launch Date`. -/
def periodKeyRate (c : Cols) (period : String) (r : Row) : Option String :=
  if period = "week" then
    (if c.hasLaunchYYWW then r.launchYYWW else r.launchDate.map weekPeriodStr)
  else if period = "quarter" then r.launchDate.map quarterPeriodStr
  else
    (if c.hasLaunchMonth then r.launchMonth else r.launchDate.map monthPeriodStr)

/-- The `'Period'` column assignment of the ratio breakdowns
(`get_ad_type_ratio`, `get_product_ratio`, `get_format_ratio`): quarter
derives from `Launch Date`, while both `"week"` and the month default use
`Launch Month` (or derive a month from `Launch Date`) — the week branch is
written out in the source with the comment "Convert week to month for ratio
charts". -/
def periodKeyRatio (c : Cols) (period : String) (r : Row) : Option String :=
  if period = "quarter" then r.launchDate.map quarterPeriodStr
  else if period = "week" then
    (if c.hasLaunchMonth then r.launchMonth else r.launchDate.map monthPeriodStr)
  else
    (if c.hasLaunchMonth then r.launchMonth else r.launchDate.map monthPeriodStr)

/-- `df[df['Launch Date'].notna()]`. -/
def dateFiltered (t : Table) : List Row :=
  t.rows.filter (fun r => r.launchDate.isSome)

/-- The optional case-insensitive Status pre-filter of the ratio/volume entry
points: `if status and 'Status' in df.columns: df = df[df['Status'].str.lower()
== status.lower()]`.  An empty string is falsy in Python, and a missing Status
column silently skips the filter. -/
def statusFiltered (c : Cols) (status : Option String) (rows : List Row) : List Row :=
  match status with
  | some s =>
    if s ≠ "" ∧ c.hasStatus then rows.filter (statusIs (pyLower s)) else rows
  | none => rows

/-- `{labels: [...], data: [...]}`. -/
structure SeriesOut (α : Type) where
  labels : List String
  data : List α
deriving DecidableEq

/-- One `{label: ..., data: [...]}` dataset (chart styling fields such as
`borderWidth` / colors are presentation-only and not modelled). -/
structure Dataset (α : Type) where
  label : String
  data : List α
deriving DecidableEq

/-- `{labels: [...], datasets: [...]}`.  `labels` entries are `Option String`
because `df['Period'].unique()` keeps a missing period value (a `NaN` from a
precomputed period column), unlike `groupby`. -/
structure MultiOut (α : Type) where
  labels : List (Option String)
  datasets : List (Dataset α)
deriving DecidableEq

/-- `_sort_periods_chronologically` applied to a `unique()` result that may
hold a missing value: `str(nan)` is `"nan"`, which no parse attempt in the
modelled subset accepts, so such an entry keeps the `Timestamp.min` key.  (Its
exact tie position under Python's sort is implementation-defined — `NaT`
comparisons are all false — and no claim below depends on it.) -/
def sortKeyO (o : Option String) : Int :=
  match o with
  | some s => periodSortKey s
  | none => periodSortKey "nan"

def sortPeriodsO (ps : List (Option String)) : List (Option String) :=
  List.insertionSort (fun a b => sortKeyO a ≤ sortKeyO b) ps

/-- `(df['Period'] == pv)` on one row: false when `pv` is the missing value. -/
def periodCellIs (key : Row → Option String) (pv : Option String) (r : Row) : Bool :=
  match pv with
  | some v => key r = some v
  | none => false

/-- `AdAnalytics.get_win_rate_by_period`. -/
def get_win_rate_by_period (t : Table) (period : String) :
    Except String (SeriesOut ℚ) :=
  if !t.cols.hasLaunchDate || t.rows.isEmpty then .ok ⟨[], []⟩
  else do
    let df := dateFiltered t
    let key := periodKeyRate t.cols period
    let ks := groupbyKeys df key
    let pairs ← ks.mapM (fun k => do
      let wr ← calculate_win_rate ⟨t.cols, groupRows df key k⟩
      pure (k, wr))
    let sorted := sortPeriods ks
    pure ⟨sorted, sorted.map (fun p => lookupD pairs p 0)⟩

/-- The common body of the three dimension-sliced win-rate entry points
(`get_win_rate_by_strategist` / `_product` / `_ad_type`), which differ only in
the guarded dimension column: filter to dated rows, assign periods, sort the
distinct period values, enumerate distinct non-missing dimension values, and
compute the win rate of every (period, value) sub-frame. -/
def winRateSliced (t : Table) (dim : Row → Option String) (period : String) :
    Except String (MultiOut ℚ) := do
  let df := dateFiltered t
  let key := periodKeyRate t.cols period
  let periods := sortPeriodsO (uniqueFirst (df.map key))
  let dims := uniqueFirst (df.filterMap dim)
  let datasets ← dims.mapM (fun v => do
    let data ← periods.mapM (fun pv => do
      calculate_win_rate ⟨t.cols, df.filter (fun r => periodCellIs key pv r && dim r = some v)⟩)
    pure ⟨v, data⟩)
  pure ⟨periods, datasets⟩

/-- `AdAnalytics.get_win_rate_by_strategist`. -/
def get_win_rate_by_strategist (t : Table) (period : String) :
    Except String (MultiOut ℚ) :=
  if !t.cols.hasLaunchDate || !t.cols.hasStrategist || t.rows.isEmpty then .ok ⟨[], []⟩
  else winRateSliced t (fun r => r.strategist) period

/-- `AdAnalytics.get_win_rate_by_product` (note: no Product recoding happens
here, unlike `get_product_ratio`). -/
def get_win_rate_by_product (t : Table) (period : String) :
    Except String (MultiOut ℚ) :=
  if !t.cols.hasLaunchDate || !t.cols.hasProduct || t.rows.isEmpty then .ok ⟨[], []⟩
  else winRateSliced t (fun r => r.product) period

/-- `AdAnalytics.get_win_rate_by_ad_type`. -/
def get_win_rate_by_ad_type (t : Table) (period : String) :
    Except String (MultiOut ℚ) :=
  if !t.cols.hasLaunchDate || !t.cols.hasType || t.rows.isEmpty then .ok ⟨[], []⟩
  else winRateSliced t (fun r => r.adType) period

/-- The common body of `get_ad_type_ratio` and `get_format_ratio`: dated rows,
optional status filter, ratio period keys (week collapses to month), then a
row count per (period, dimension value) cell.  These never touch an unguarded
column, so they are total. -/
def countSliced (t : Table) (dim : Row → Option String) (period : String)
    (status : Option String) : MultiOut Nat :=
  let df := statusFiltered t.cols status (dateFiltered t)
  let key := periodKeyRatio t.cols period
  let periods := sortPeriodsO (uniqueFirst (df.map key))
  let dims := uniqueFirst (df.filterMap dim)
  ⟨periods,
   dims.map (fun v =>
     ⟨v, periods.map (fun pv =>
        (df.filter (fun r => periodCellIs key pv r && dim r = some v)).length)⟩)⟩

/-- `AdAnalytics.get_ad_type_ratio`. -/
def get_ad_type_ratio (t : Table) (period : String) (status : Option String) :
    MultiOut Nat :=
  if !t.cols.hasLaunchDate || !t.cols.hasType || t.rows.isEmpty then ⟨[], []⟩
  else countSliced t (fun r => r.adType) period status

/-- `AdAnalytics.get_format_ratio`. -/
def get_format_ratio (t : Table) (period : String) (status : Option String) :
    MultiOut Nat :=
  if !t.cols.hasLaunchDate || !t.cols.hasFormat || t.rows.isEmpty then ⟨[], []⟩
  else countSliced t (fun r => r.format) period status

/-- `df['Product'].fillna('Unknown').replace('', 'Unknown')` applied to a row
(only `get_product_ratio` does this). -/
def productFilled (r : Row) : Row :=
  { r with product := some (match r.product with
      | none => "Unknown"
      | some s => if s = "" then "Unknown" else s) }

/-- `AdAnalytics.get_product_ratio`: like the other ratio breakdowns but the
Product column is recoded (missing/empty to `"Unknown"`) before grouping, the
period values are additionally `dropna`-ed before sorting, and the dataset
label re-maps an empty product to `"Unknown"` a second time. -/
def get_product_ratio (t : Table) (period : String) (status : Option String) :
    MultiOut Nat :=
  if !t.cols.hasLaunchDate || !t.cols.hasProduct || t.rows.isEmpty then ⟨[], []⟩
  else
    let df := (statusFiltered t.cols status (dateFiltered t)).map productFilled
    let key := periodKeyRatio t.cols period
    let periods := (sortPeriods (uniqueFirst (df.filterMap key))).map some
    let dims := uniqueFirst (df.filterMap (fun r => r.product))
    ⟨periods,
     dims.map (fun v =>
       ⟨if v = "" then "Unknown" else v,
        periods.map (fun pv =>
          (df.filter (fun r =>
            periodCellIs key pv r && r.product = some v)).length)⟩)⟩

/-- Arithmetic mean (pandas `Series.mean` over the non-missing cells of a
group; every group below is nonempty). -/
def meanQ (l : List ℚ) : ℚ := l.sum / (l.length : ℚ)

/-- `if strategist: df = df[df['Strategist'] == strategist]` — an empty-string
argument is falsy and skips the filter; a present argument with a missing
Strategist column raises `KeyError`. -/
def strategistFiltered (c : Cols) (strategist : Option String) (rows : List Row) :
    Except String (List Row) :=
  match strategist with
  | some s =>
    if s = "" then .ok rows
    else if c.hasStrategist then .ok (rows.filter (fun r => r.strategist = some s))
    else .error "KeyError: Strategist"
  | none => .ok rows

/-- Same for `if editor: df = df[df['Editor/Designer'] == editor]`. -/
def editorFiltered (c : Cols) (editor : Option String) (rows : List Row) :
    Except String (List Row) :=
  match editor with
  | some s =>
    if s = "" then .ok rows
    else if c.hasEditorDesigner then .ok (rows.filter (fun r => r.editorDesigner = some s))
    else .error "KeyError: Editor/Designer"
  | none => .ok rows

/-- `AdAnalytics.get_avg_production_time`: rows need a Launch Date, a
non-missing and strictly positive `Ad time to ready (days)`; empty after those
filters (or after the strategist filter) returns the empty structure; then the
per-period mean rounded to two decimals. -/
def get_avg_production_time (t : Table) (strategist : Option String)
    (period : String) : Except String (SeriesOut ℚ) :=
  if !t.cols.hasAdTime || !t.cols.hasLaunchDate then .ok ⟨[], []⟩
  else do
    let df := (dateFiltered t).filter (fun r => r.adTimeToReady.isSome)
    let df := df.filter (fun r => match r.adTimeToReady with
      | some q => decide (0 < q)
      | none => false)
    if df.isEmpty then pure ⟨[], []⟩
    else do
      let df ← strategistFiltered t.cols strategist df
      if (match strategist with | some s => s ≠ "" | none => false : Bool) && df.isEmpty then
        pure ⟨[], []⟩
      else do
        let key := periodKeyRate t.cols period
        let ks := groupbyKeys df key
        let pairs := ks.map (fun k =>
          (k, round2 (meanQ ((groupRows df key k).filterMap (fun r => r.adTimeToReady)))))
        let sorted := sortPeriods ks
        pure ⟨sorted, sorted.map (fun p => lookupD pairs p 0)⟩

/-- `AdAnalytics.get_avg_editing_time`: rows need a Launch Date and a
non-missing `Editing Duration (minutes)`; the duration is converted to hours
(divide by 60) and averaged per period, rounded to two decimals.  There is no
emptiness re-check after the filters. -/
def get_avg_editing_time (t : Table) (editor : Option String)
    (period : String) : Except String (SeriesOut ℚ) :=
  if !t.cols.hasEditingDuration || !t.cols.hasLaunchDate then .ok ⟨[], []⟩
  else do
    let df := (dateFiltered t).filter (fun r => r.editingDuration.isSome)
    let df ← editorFiltered t.cols editor df
    let key := periodKeyRate t.cols period
    let ks := groupbyKeys df key
    let pairs := ks.map (fun k =>
      (k, round2 (meanQ ((groupRows df key k).filterMap
            (fun r => r.editingDuration.map (fun q => q / 60))))))
    let sorted := sortPeriods ks
    pure ⟨sorted, sorted.map (fun p => lookupD pairs p 0)⟩

/-- `AdAnalytics.get_creatives_volume`: dated rows, optional status and
strategist filters, then a per-period row count. -/
def get_creatives_volume (t : Table) (period : String)
    (strategist : Option String) (status : Option String) :
    Except String (SeriesOut Nat) :=
  if !t.cols.hasLaunchDate || t.rows.isEmpty then .ok ⟨[], []⟩
  else do
    let df := statusFiltered t.cols status (dateFiltered t)
    let df ← strategistFiltered t.cols strategist df
    let key := periodKeyRate t.cols period
    let ks := groupbyKeys df key
    let pairs := ks.map (fun k => (k, (groupRows df key k).length))
    let sorted := sortPeriods ks
    pure ⟨sorted, sorted.map (fun p => lookupD pairs p 0)⟩

/-- A row with every cell missing (test-fixture helper). -/
def blankRow : Row :=
  ⟨none, none, none, none, none, none, none, none, none, none, none⟩

/-- A row carrying only a Status value. -/
def statusRow (s : String) : Row := { blankRow with status := some s }

/-- A fully-populated column set. -/
def colsAll : Cols :=
  ⟨true, true, true, true, true, true, true, true, true, true, true⟩

/-- The specification's win-rate example group: 3 Winner, 2 Loser, 5 Launched,
1 Pending. -/
def winExample : Table :=
  ⟨colsAll,
   [statusRow "Winner", statusRow "Winner", statusRow "Winner",
    statusRow "Loser", statusRow "Loser",
    statusRow "Launched", statusRow "Launched", statusRow "Launched",
    statusRow "Launched", statusRow "Launched",
    statusRow "Pending"]⟩

/-- A one-row table whose only row is a Winner. -/
def winOne : Table := ⟨colsAll, [statusRow "Winner"]⟩

/-- A row with only a Launch Date. -/
def datedRow : Row := { blankRow with launchDate := some (2024, 1, 15) }

/-- A column set with Launch Date but no Status (and no precomputed period
columns, so the month key derives from Launch Date). -/
def noStatusCols : Cols :=
  ⟨true, false, false, false, false, false, false, false, false, false, false⟩

/-- A nonempty dated table without a Status column. -/
def noStatusTable : Table := ⟨noStatusCols, [datedRow]⟩

/-- A table without the Launch Date column. -/
def noLaunchTable : Table :=
  ⟨⟨false, true, true, true, true, true, true, true, true, true, true⟩, [blankRow]⟩

/-- A nonempty table whose rows all lack a Launch Date value. -/
def undatedTable : Table := ⟨colsAll, [statusRow "Winner"]⟩

/-- Alignment witness fixture: two strategists over two months, strategist B
having no February row (its February cell must be zero-filled). -/
def w6Table : Table :=
  ⟨⟨true, true, true, false, false, false, false, false, false, false, false⟩,
   [{ blankRow with launchDate := some (2024, 1, 10)
                    strategist := some "A"
                    status := some "Pending" },
    { blankRow with launchDate := some (2024, 2, 10)
                    strategist := some "A"
                    status := some "Pending" },
    { blankRow with launchDate := some (2024, 1, 12)
                    strategist := some "B"
                    status := some "Pending" }]⟩

/-- The expected output of `get_win_rate_by_strategist w6Table "month"`. -/
def w6Res : MultiOut ℚ :=
  ⟨[some "2024-01", some "2024-02"],
   [⟨"A", [0, 0]⟩, ⟨"B", [0, 0]⟩]⟩

/-- Week-granularity witness fixture: a dated row with a precomputed
`Launch YY-WW` value. -/
def w7Table : Table :=
  ⟨⟨true, true, false, false, false, false, false, false, true, false, false⟩,
   [{ blankRow with launchDate := some (2024, 1, 10)
                    launchYYWW := some "24-02"
                    status := some "Pending" }]⟩

/-- A dated row whose Product is the empty string. -/
def w8Row : Row :=
  { blankRow with launchDate := some (2024, 1, 15)
                  product := some ""
                  status := some "Pending" }

/-- A one-row table whose Product value is the empty string. -/
def w8Table : Table :=
  ⟨⟨true, true, false, false, true, false, false, false, false, false, false⟩,
   [w8Row]⟩

/-- A dated row carrying both precomputed period columns and an ad type. -/
def w9Table : Table :=
  ⟨⟨true, false, false, false, false, true, false, true, true, false, false⟩,
   [{ blankRow with launchDate := some (2024, 2, 5)
                    launchMonth := some "2024-02"
                    launchYYWW := some "24-05"
                    adType := some "Video" }]⟩

/-- A dated row with a precomputed Launch Month and an outcome-free status. -/
def w9bTable : Table :=
  ⟨⟨true, true, false, false, false, false, false, true, false, false, false⟩,
   [{ blankRow with launchDate := some (2024, 3, 5)
                    launchMonth := some "2024-03"
                    status := some "Pending" }]⟩

deriving instance DecidableEq for Except

instance : IsTotal String (fun a b => periodSortKey a ≤ periodSortKey b) :=
  ⟨fun _ _ => Int.le_total _ _⟩

instance : IsTrans String (fun a b => periodSortKey a ≤ periodSortKey b) :=
  ⟨fun _ _ _ h h2 => le_trans h h2⟩

/-- The timestamp-bounds gate only lets through values above the
`Timestamp.min` day. -/
theorem tsGate_some_gt {v w : Int} (h : tsGate v = some w) : tsMinDay < w := by
  unfold tsGate at h
  split at h
  · cases h
    omega
  · cases h

theorem mkTs_some_gt {y m v : Int} (h : mkTs y m = some v) : tsMinDay < v := by
  unfold mkTs at h
  split at h
  · exact tsGate_some_gt h
  · cases h

/-- Every successful parse of a period label yields a timestamp strictly
above the `Timestamp.min` sort key assigned to failing labels. -/
theorem parsePeriodLabel_some_gt {l : List Char} {v : Int}
    (h : parsePeriodLabel l = some v) : tsMinDay < v := by
  unfold parsePeriodLabel at h
  split at h
  · unfold parseQuarterLabel at h
    split at h
    · split at h
      · exact mkTs_some_gt h
      · cases h
    · cases h
  · split at h
    · unfold parseWeekLabel at h
      simp only [] at h
      split at h
      · split at h
        · exact tsGate_some_gt h
        · cases h
      · cases h
    · split at h
      · unfold parseMonthLabel at h
        split at h
        · split at h
          · exact mkTs_some_gt h
          · cases h
        · cases h
      · rename_i h1 h2 h3
        cases hab : parseMonthNameLabel monthAbbrevs l with
        | some w =>
          rw [hab] at h
          cases h
          unfold parseMonthNameLabel at hab
          split at hab
          · split at hab
            · split at hab
              · exact mkTs_some_gt hab
              · cases hab
            · cases hab
          · cases hab
        | none =>
          rw [hab] at h
          cases hfu : parseMonthNameLabel monthFulls l with
          | some w =>
            rw [hfu] at h
            cases h
            unfold parseMonthNameLabel at hfu
            split at hfu
            · split at hfu
              · split at hfu
                · exact mkTs_some_gt hfu
                · cases hfu
              · cases hfu
            · cases hfu
          | none =>
            rw [hfu] at h
            cases h

/-- Calendar sanity checks for the day-number model. -/
theorem civil_day_samples :
    daysFromCivil 1970 1 1 = 0 ∧ daysFromCivil 2024 1 1 = 19723 ∧
      civilFromDays 19723 = (2024, 1, 1) ∧
      monthPeriodStr (2024, 1, 15) = "2024-01" ∧
      quarterPeriodStr (2024, 4, 1) = "2024Q2" ∧
      weekPeriodStr (2024, 1, 3) = "2024-01-01/2024-01-07" := by
  refine ⟨by decide, by decide, by decide, by decide, by decide, by decide⟩

/-- Parser samples: one label per branch of the fallback chain. -/
theorem parsePeriodLabel_samples :
    parsePeriodLabel "2024Q1".data = some (daysFromCivil 2024 1 1) ∧
      parsePeriodLabel "2024-01".data = some (daysFromCivil 2024 1 1) ∧
      parsePeriodLabel "2024-W01".data = some (daysFromCivil 2024 1 1) ∧
      parsePeriodLabel "Jan 2024".data = some (daysFromCivil 2024 1 1) ∧
      parsePeriodLabel "January 2024".data = some (daysFromCivil 2024 1 1) ∧
      parsePeriodLabel "garbage".data = none := by
  refine ⟨by decide, by decide, by decide, by decide, by decide, by decide⟩

/-- The specification's ordering example within one granularity. -/
theorem sortPeriods_month_name_sample :
    sortPeriods ["Mar 2024", "Jan 2024", "Feb 2024"] =
      ["Jan 2024", "Feb 2024", "Mar 2024"] := by decide

/-- C1 (amended): `_sort_periods_chronologically` returns the input labels
with multiplicity preserved — a stable sort, not a distinct set — ordered
ascending by each label's parsed chronological instant.  (When the caller
passes duplicate-free labels, as every engine call site does via `unique()` /
`groupby`, the output is therefore the distinct set of labels in ascending
chronological order.) -/
theorem sortPeriods_perm_sorted (ps : List String) :
    (sortPeriods ps).Perm ps ∧
      (sortPeriods ps).Sorted (fun a b => periodSortKey a ≤ periodSortKey b) :=
  ⟨List.perm_insertionSort _ ps, List.sorted_insertionSort _ ps⟩

/-- C1 counterexample: on an input with a duplicate label the normalizer
returns the duplicate twice, so its output is not the distinct set of the
input labels. -/
theorem sortPeriods_keeps_duplicates :
    sortPeriods ["2024-01", "2024-01"] = ["2024-01", "2024-01"] ∧
      sortPeriods ["2024-01", "2024-01"] ≠ ["2024-01"] := by
  exact ⟨by decide, by decide⟩

/-- C2: the label `"2024Q1"` parses to the first day of January 2024, but
`"2024-Q1"` does not — `"2024-Q1".replace('Q', '-Q')` gives `"2024--Q1"`,
whose split on `"-Q"` is `["2024-", "1"]`, and `int("2024-")` raises, so the
label falls to the `Timestamp.min` fallback key and sorts before every
parseable label instead of alongside `"2024Q1"` (here: against the earlier
month `"2023-12"`). -/
theorem quarter_dash_label_falls_to_min_key :
    periodSortKey "2024Q1" = daysFromCivil 2024 1 1 ∧
      periodSortKey "2024-Q1" = tsMinDay ∧
      daysFromCivil 2024 1 1 ≠ tsMinDay ∧
      sortPeriods ["2024Q1", "2023-12"] = ["2023-12", "2024Q1"] ∧
      sortPeriods ["2024-Q1", "2023-12"] = ["2024-Q1", "2023-12"] := by
  exact ⟨by decide, by decide, by decide, by decide, by decide⟩

/-- C3: a label failing every parse attempt keeps the `Timestamp.min` sort
key, is still present in the output as its original string, and is placed
before every label whose parse succeeds. -/
theorem unparseable_label_kept_and_sorts_first (ps : List String) (g : String)
    (hmem : g ∈ ps) (hfail : parsePeriodLabel (lcTrim g.data) = none) :
    periodSortKey g = tsMinDay ∧ g ∈ sortPeriods ps ∧
      ∀ (i j : Fin (sortPeriods ps).length),
        (sortPeriods ps).get i = g →
        (parsePeriodLabel (lcTrim ((sortPeriods ps).get j).data)).isSome →
        (i : ℕ) < (j : ℕ) := by
  have hkey : periodSortKey g = tsMinDay := by
    unfold periodSortKey
    rw [hfail]
    rfl
  refine ⟨hkey, (List.mem_insertionSort _).2 hmem, ?_⟩
  intro i j hig hjp
  by_contra hnot
  have hsorted : (sortPeriods ps).Sorted (fun a b => periodSortKey a ≤ periodSortKey b) :=
    List.sorted_insertionSort _ ps
  obtain ⟨w, hw⟩ := Option.isSome_iff_exists.1 hjp
  have hkj : periodSortKey ((sortPeriods ps).get j) = w := by
    unfold periodSortKey
    rw [hw]
    rfl
  have hwgt : tsMinDay < w := parsePeriodLabel_some_gt hw
  rcases Nat.lt_or_ge (j : ℕ) (i : ℕ) with hji | hij
  · have hle := hsorted.rel_get_of_lt (a := j) (b := i) hji
    rw [hig, hkey, hkj] at hle
    omega
  · have : (i : ℕ) = (j : ℕ) := le_antisymm hij (Nat.le_of_not_lt hnot)
    have : i = j := Fin.ext this
    subst this
    rw [hig] at hkj
    rw [hkey] at hkj
    omega

/-- Witness for C3 at a concrete input: `"garbage"` among month-name labels. -/
theorem unparseable_label_kept_and_sorts_first_witness :
    ("garbage" ∈ (["Feb 2024", "garbage", "Jan 2024"] : List String)) ∧
      parsePeriodLabel (lcTrim "garbage".data) = none ∧
      (periodSortKey "garbage" = tsMinDay ∧
        "garbage" ∈ sortPeriods ["Feb 2024", "garbage", "Jan 2024"] ∧
        ∀ (i j : Fin (sortPeriods ["Feb 2024", "garbage", "Jan 2024"]).length),
          (sortPeriods ["Feb 2024", "garbage", "Jan 2024"]).get i = "garbage" →
          (parsePeriodLabel
              (lcTrim ((sortPeriods ["Feb 2024", "garbage", "Jan 2024"]).get j).data)).isSome →
          (i : ℕ) < (j : ℕ)) :=
  ⟨by decide, by decide,
    unparseable_label_kept_and_sorts_first ["Feb 2024", "garbage", "Jan 2024"]
      "garbage" (by decide) (by decide)⟩

theorem roundHalfEven_nonneg {q : ℚ} (h : 0 ≤ q) : 0 ≤ roundHalfEven q := by
  unfold roundHalfEven
  have hfl : (0 : Int) ≤ ⌊q⌋ := Int.floor_nonneg.2 h
  split
  · exact hfl
  · split
    · omega
    · split <;> omega

theorem roundHalfEven_le_of_le {q : ℚ} {B : Int} (h : q ≤ (B : ℚ)) :
    roundHalfEven q ≤ B := by
  have hfl : ⌊q⌋ ≤ B := by
    have h2 := Int.floor_le_floor h
    rwa [Int.floor_intCast] at h2
  have hlt : (0 : ℚ) < q - ⌊q⌋ → ⌊q⌋ < B := by
    intro hpos
    rcases lt_or_eq_of_le hfl with hl | he
    · exact hl
    · exfalso
      rw [he] at hpos
      linarith
  unfold roundHalfEven
  split
  · exact hfl
  · split
    · rename_i h1 h2
      have h3 := hlt (by linarith)
      omega
    · rename_i h1 h2
      have h3 := hlt (by linarith [not_lt.1 h1])
      split <;> omega

theorem round2_bounds {q : ℚ} (h0 : 0 ≤ q) (h1 : q ≤ 100) :
    0 ≤ round2 q ∧ round2 q ≤ 100 := by
  unfold round2
  have hr0 : 0 ≤ roundHalfEven (q * 100) := roundHalfEven_nonneg (by positivity)
  have hr1 : roundHalfEven (q * 100) ≤ (10000 : Int) := by
    apply roundHalfEven_le_of_le
    push_cast
    nlinarith
  constructor
  · positivity
  · rw [div_le_iff₀ (by norm_num)]
    calc (roundHalfEven (q * 100) : ℚ) ≤ (10000 : Int) := by exact_mod_cast hr1
      _ = 100 * 100 := by norm_num

/-- C4: `calculate_win_rate` implements exactly
`winners / (winners + losers + launched) * 100` rounded to two decimals,
where the three counts are case-insensitive Status matches (rows with any
other or missing Status counted nowhere), and both an empty frame and a frame
with no outcome-determined row give 0 — a number, never an error. -/
theorem calculate_win_rate_formula (t : Table)
    (h : t.cols.hasStatus = true ∨ t.rows = []) :
    calculate_win_rate t = .ok (
      if countStatus t.rows "winner" + countStatus t.rows "loser" +
          countStatus t.rows "launched" = 0 then 0
      else round2 ((countStatus t.rows "winner" : ℚ) /
        ((countStatus t.rows "winner" + countStatus t.rows "loser" +
          countStatus t.rows "launched" : Nat) : ℚ) * 100)) := by
  by_cases hemp : t.rows.isEmpty
  · have hnil : t.rows = [] := by
      cases hr : t.rows with
      | nil => rfl
      | cons a l => rw [hr] at hemp; simp at hemp
    rw [calculate_win_rate, if_pos hemp]
    simp [hnil, countStatus]
  · rcases h with h | h
    · rw [calculate_win_rate, if_neg hemp, if_pos h]
      simp only []
      split
      · rfl
      · rfl
    · rw [h] at hemp
      simp at hemp

/-- Witness for C4: the spec's example group — 3 Winner, 2 Loser, 5 Launched
and 1 Pending row — has win rate exactly 30, the Pending row affecting
neither numerator nor denominator. -/
theorem calculate_win_rate_formula_witness :
    (winExample.cols.hasStatus = true ∨ winExample.rows = []) ∧
      calculate_win_rate winExample = .ok 30 := by
  refine ⟨Or.inl rfl, ?_⟩
  rw [calculate_win_rate_formula winExample (Or.inl rfl)]
  have h1 : countStatus winExample.rows "winner" = 3 := by decide
  have h2 : countStatus winExample.rows "loser" = 2 := by decide
  have h3 : countStatus winExample.rows "launched" = 5 := by decide
  rw [h1, h2, h3]
  norm_num [round2, roundHalfEven]

/-- C10: every value `calculate_win_rate` returns lies between 0 and 100
inclusive — the winner count never exceeds the outcome-determined total, and
the empty / no-outcome cases return 0 — so every number in a win-rate chart
series is in [0, 100]. -/
theorem calculate_win_rate_in_range (t : Table) (q : ℚ)
    (h : calculate_win_rate t = .ok q) : 0 ≤ q ∧ q ≤ 100 := by
  unfold calculate_win_rate at h
  split at h
  · cases h
    norm_num
  · split at h
    · simp only [] at h
      split at h
      · cases h
        norm_num
      · rename_i htot
        cases h
        apply round2_bounds
        · positivity
        · have hw : countStatus t.rows "winner" ≤
              countStatus t.rows "winner" + countStatus t.rows "loser" +
                countStatus t.rows "launched" := by omega
          have htot2 : (0 : ℚ) < ((countStatus t.rows "winner" +
              countStatus t.rows "loser" + countStatus t.rows "launched" : Nat) : ℚ) := by
            exact_mod_cast Nat.pos_of_ne_zero htot
          have hle1 : (countStatus t.rows "winner" : ℚ) /
              ((countStatus t.rows "winner" + countStatus t.rows "loser" +
                countStatus t.rows "launched" : Nat) : ℚ) ≤ 1 :=
            (div_le_one htot2).2 (by exact_mod_cast hw)
          nlinarith
    · cases h

/-- Witness for C10: a single-Winner table evaluates to exactly 100, which the
range theorem then brackets. -/
theorem calculate_win_rate_in_range_witness :
    calculate_win_rate winOne = .ok 100 ∧ (0 ≤ (100 : ℚ) ∧ (100 : ℚ) ≤ 100) := by
  have hcomp : calculate_win_rate winOne = .ok 100 := by
    rw [calculate_win_rate, if_neg (by decide), if_pos (show winOne.cols.hasStatus = true from rfl)]
    simp only []
    rw [if_neg (by decide)]
    have h1 : countStatus winOne.rows "winner" = 1 := by decide
    have h2 : countStatus winOne.rows "loser" = 0 := by decide
    have h3 : countStatus winOne.rows "launched" = 0 := by decide
    rw [h1, h2, h3]
    norm_num [round2, roundHalfEven]
  exact ⟨hcomp, calculate_win_rate_in_range winOne 100 hcomp⟩

theorem statusFiltered_nil (c : Cols) (s : Option String) :
    statusFiltered c s [] = [] := by
  unfold statusFiltered
  cases s
  · rfl
  · split <;> simp

theorem uniqueFirst_nil {α : Type} [DecidableEq α] :
    uniqueFirst ([] : List α) = [] := rfl

theorem groupbyKeys_nil (key : Row → Option String) : groupbyKeys [] key = [] := by
  unfold groupbyKeys
  rw [List.filterMap_nil, uniqueFirst_nil]
  rfl

/-- C5 counterexample: a nonempty dated table that merely lacks the Status
column makes `get_win_rate_by_period` raise a `KeyError` instead of returning
the empty-labels structure — the engine does raise for this data-quality
condition. -/
theorem win_rate_missing_status_raises :
    get_win_rate_by_period noStatusTable "month" = .error "KeyError: Status" := by
  decide

theorem sortPeriods_nil : sortPeriods [] = [] := rfl

theorem sortPeriodsO_nil : sortPeriodsO [] = [] := rfl

/-- C5 (amended): for the columns each entry point guards (Launch Date and
the sliced dimension / metric column) and for tables left empty by the
Launch-Date filter, every entry point returns its defined empty-labels
structure without raising; the blanket never-raise guarantee does not hold,
since a nonempty dated table lacking the unguarded Status column makes the
win-rate entry points raise a `KeyError`. -/
theorem engine_empty_degradation :
    (∀ t p, t.cols.hasLaunchDate = false →
        get_win_rate_by_period t p = .ok ⟨[], []⟩) ∧
    (∀ t p, dateFiltered t = [] → get_win_rate_by_period t p = .ok ⟨[], []⟩) ∧
    (∀ t p, t.cols.hasLaunchDate = false ∨ t.cols.hasStrategist = false →
        get_win_rate_by_strategist t p = .ok ⟨[], []⟩) ∧
    (∀ t p, dateFiltered t = [] → get_win_rate_by_strategist t p = .ok ⟨[], []⟩) ∧
    (∀ t p, t.cols.hasLaunchDate = false ∨ t.cols.hasProduct = false →
        get_win_rate_by_product t p = .ok ⟨[], []⟩) ∧
    (∀ t p, dateFiltered t = [] → get_win_rate_by_product t p = .ok ⟨[], []⟩) ∧
    (∀ t p, t.cols.hasLaunchDate = false ∨ t.cols.hasType = false →
        get_win_rate_by_ad_type t p = .ok ⟨[], []⟩) ∧
    (∀ t p, dateFiltered t = [] → get_win_rate_by_ad_type t p = .ok ⟨[], []⟩) ∧
    (∀ t p s, t.cols.hasLaunchDate = false ∨ t.cols.hasType = false →
        get_ad_type_ratio t p s = ⟨[], []⟩) ∧
    (∀ t p s, dateFiltered t = [] → get_ad_type_ratio t p s = ⟨[], []⟩) ∧
    (∀ t p s, t.cols.hasLaunchDate = false ∨ t.cols.hasProduct = false →
        get_product_ratio t p s = ⟨[], []⟩) ∧
    (∀ t p s, dateFiltered t = [] → get_product_ratio t p s = ⟨[], []⟩) ∧
    (∀ t p s, t.cols.hasLaunchDate = false ∨ t.cols.hasFormat = false →
        get_format_ratio t p s = ⟨[], []⟩) ∧
    (∀ t p s, dateFiltered t = [] → get_format_ratio t p s = ⟨[], []⟩) ∧
    (∀ t st p, t.cols.hasAdTime = false ∨ t.cols.hasLaunchDate = false →
        get_avg_production_time t st p = .ok ⟨[], []⟩) ∧
    (∀ t st p, dateFiltered t = [] → get_avg_production_time t st p = .ok ⟨[], []⟩) ∧
    (∀ t ed p, t.cols.hasEditingDuration = false ∨ t.cols.hasLaunchDate = false →
        get_avg_editing_time t ed p = .ok ⟨[], []⟩) ∧
    (∀ t p, dateFiltered t = [] → get_avg_editing_time t none p = .ok ⟨[], []⟩) ∧
    (∀ t p st s, t.cols.hasLaunchDate = false ∨ t.rows = [] →
        get_creatives_volume t p st s = .ok ⟨[], []⟩) ∧
    (∀ t p s, dateFiltered t = [] → get_creatives_volume t p none s = .ok ⟨[], []⟩) := by
  refine ⟨?_, ?_, ?_, ?_, ?_, ?_, ?_, ?_, ?_, ?_, ?_, ?_, ?_, ?_, ?_, ?_, ?_, ?_, ?_, ?_⟩
  · intro t p h
    simp [get_win_rate_by_period, h]
  · intro t p h
    unfold get_win_rate_by_period
    split
    · rfl
    · simp [h, groupbyKeys_nil, sortPeriods_nil]
      rfl
  · intro t p h
    rcases h with h | h <;> simp [get_win_rate_by_strategist, h]
  · intro t p h
    unfold get_win_rate_by_strategist
    split
    · rfl
    · simp [winRateSliced, h, uniqueFirst_nil, sortPeriodsO_nil]
      rfl
  · intro t p h
    rcases h with h | h <;> simp [get_win_rate_by_product, h]
  · intro t p h
    unfold get_win_rate_by_product
    split
    · rfl
    · simp [winRateSliced, h, uniqueFirst_nil, sortPeriodsO_nil]
      rfl
  · intro t p h
    rcases h with h | h <;> simp [get_win_rate_by_ad_type, h]
  · intro t p h
    unfold get_win_rate_by_ad_type
    split
    · rfl
    · simp [winRateSliced, h, uniqueFirst_nil, sortPeriodsO_nil]
      rfl
  · intro t p s h
    rcases h with h | h <;> simp [get_ad_type_ratio, h]
  · intro t p s h
    unfold get_ad_type_ratio
    split
    · rfl
    · simp [countSliced, h, statusFiltered_nil, uniqueFirst_nil, sortPeriodsO_nil]
  · intro t p s h
    rcases h with h | h <;> simp [get_product_ratio, h]
  · intro t p s h
    unfold get_product_ratio
    split
    · rfl
    · simp [h, statusFiltered_nil, uniqueFirst_nil, sortPeriods_nil]
  · intro t p s h
    rcases h with h | h <;> simp [get_format_ratio, h]
  · intro t p s h
    unfold get_format_ratio
    split
    · rfl
    · simp [countSliced, h, statusFiltered_nil, uniqueFirst_nil, sortPeriodsO_nil]
  · intro t st p h
    rcases h with h | h <;> simp [get_avg_production_time, h]
  · intro t st p h
    unfold get_avg_production_time
    split
    · rfl
    · simp [h]
      rfl
  · intro t ed p h
    rcases h with h | h <;> simp [get_avg_editing_time, h]
  · intro t p h
    unfold get_avg_editing_time
    split
    · rfl
    · simp [h, editorFiltered, groupbyKeys_nil, sortPeriods_nil]
  · intro t p st s h
    rcases h with h | h <;> simp [get_creatives_volume, h]
  · intro t p s h
    unfold get_creatives_volume
    split
    · rfl
    · simp [h, statusFiltered_nil, strategistFiltered, groupbyKeys_nil, sortPeriods_nil]

/-- Witness for C5 (amended) at concrete inputs: a table without the Launch
Date column, and a nonempty table whose rows all lack a Launch Date value. -/
theorem engine_empty_degradation_witness :
    get_win_rate_by_period noLaunchTable "month" = .ok ⟨[], []⟩ ∧
      get_ad_type_ratio undatedTable "week" none = ⟨[], []⟩ :=
  ⟨engine_empty_degradation.1 noLaunchTable "month" rfl,
   engine_empty_degradation.2.2.2.2.2.2.2.2.2.1 undatedTable "week" none (by decide)⟩

theorem except_bind_ok {ε α β : Type} {x : Except ε α} {g : α → Except ε β}
    {y : β} : (x >>= g) = .ok y ↔ ∃ a, x = .ok a ∧ g a = .ok y := by
  cases x with
  | error e =>
    constructor
    · intro h
      cases h
    · rintro ⟨a, ha, _⟩
      cases ha
  | ok a =>
    constructor
    · intro h
      exact ⟨a, rfl, h⟩
    · rintro ⟨b, hb, hg⟩
      cases hb
      exact hg

theorem mapM_ok_length {α β : Type} (f : α → Except String β) :
    ∀ (l : List α) (ys : List β), l.mapM f = .ok ys → ys.length = l.length := by
  intro l
  induction l with
  | nil =>
    intro ys h
    rw [List.mapM_nil] at h
    cases h
    rfl
  | cons a l ih =>
    intro ys h
    rw [List.mapM_cons] at h
    rcases except_bind_ok.1 h with ⟨x, hx, h2⟩
    rcases except_bind_ok.1 h2 with ⟨xs, hxs, h3⟩
    cases h3
    simp [ih xs hxs]

theorem mapM_ok_mem {α β : Type} (f : α → Except String β) :
    ∀ (l : List α) (ys : List β), l.mapM f = .ok ys →
      ∀ y ∈ ys, ∃ x ∈ l, f x = .ok y := by
  intro l
  induction l with
  | nil =>
    intro ys h y hy
    rw [List.mapM_nil] at h
    cases h
    cases hy
  | cons a l ih =>
    intro ys h y hy
    rw [List.mapM_cons] at h
    rcases except_bind_ok.1 h with ⟨x, hx, h2⟩
    rcases except_bind_ok.1 h2 with ⟨xs, hxs, h3⟩
    cases h3
    rcases List.mem_cons.1 hy with hy | hy
    · exact ⟨a, List.mem_cons_self a l, by rw [hx, hy]⟩
    · rcases ih xs hxs y hy with ⟨x2, hx2, hfx2⟩
      exact ⟨x2, List.mem_cons_of_mem a hx2, hfx2⟩

theorem mapM_ok_get {α β : Type} (f : α → Except String β) :
    ∀ (l : List α) (ys : List β), l.mapM f = .ok ys →
      ∀ (i : Nat) (hi : i < ys.length) (hl : i < l.length),
        f (l.get ⟨i, hl⟩) = .ok (ys.get ⟨i, hi⟩) := by
  intro l
  induction l with
  | nil =>
    intro ys h i hi hl
    cases hl
  | cons a l ih =>
    intro ys h i hi hl
    rw [List.mapM_cons] at h
    rcases except_bind_ok.1 h with ⟨x, hx, h2⟩
    rcases except_bind_ok.1 h2 with ⟨xs, hxs, h3⟩
    cases h3
    cases i with
    | zero => exact hx
    | succ j =>
      exact ih xs hxs j (Nat.lt_of_succ_lt_succ hi) (Nat.lt_of_succ_lt_succ hl)

/-- Structure of a successful `winRateSliced` result: the labels are the
sorted period values, every dataset's data series is one win-rate per label,
and a cell whose (period, dimension-value) sub-frame is empty holds the
empty-group value 0. -/
theorem winRateSliced_ok {t : Table} {dim : Row → Option String} {p : String}
    {res : MultiOut ℚ} (h : winRateSliced t dim p = .ok res) :
    ∀ ds ∈ res.datasets,
      ds.data.length = res.labels.length ∧
      ∀ (i : Nat) (hi : i < ds.data.length) (hl : i < res.labels.length),
        (dateFiltered t).filter (fun r =>
            periodCellIs (periodKeyRate t.cols p) (res.labels.get ⟨i, hl⟩) r &&
            dim r = some ds.label) = [] →
        ds.data.get ⟨i, hi⟩ = 0 := by
  unfold winRateSliced at h
  rcases except_bind_ok.1 h with ⟨dss, hdss, h2⟩
  cases h2
  intro ds hds
  rcases mapM_ok_mem _ _ _ hdss ds hds with ⟨v, hv, hfv⟩
  rcases except_bind_ok.1 hfv with ⟨data, hdata, h3⟩
  cases h3
  constructor
  · exact mapM_ok_length _ _ _ hdata
  · intro i hi hl hempty
    have hcell := mapM_ok_get _ _ _ hdata i hi hl
    rw [hempty] at hcell
    have : calculate_win_rate ⟨t.cols, ([] : List Row)⟩ = .ok 0 := rfl
    rw [this] at hcell
    injection hcell with h4
    exact h4.symm

/-- C6: for every dimension-sliced query that returns — the win-rate slices
and the count-ratio breakdowns alike — every dataset's data series has
exactly one entry per label; dimension values with zero rows in some period
get the metric's defined empty-group value (0) in that cell rather than being
omitted. -/
theorem sliced_dataset_alignment :
    (∀ t p res, get_win_rate_by_strategist t p = .ok res →
      ∀ ds ∈ res.datasets,
        ds.data.length = res.labels.length ∧
        ∀ (i : Nat) (hi : i < ds.data.length) (hl : i < res.labels.length),
          (dateFiltered t).filter (fun r =>
              periodCellIs (periodKeyRate t.cols p) (res.labels.get ⟨i, hl⟩) r &&
              r.strategist = some ds.label) = [] →
          ds.data.get ⟨i, hi⟩ = 0) ∧
    (∀ t p res, get_win_rate_by_product t p = .ok res →
      ∀ ds ∈ res.datasets, ds.data.length = res.labels.length) ∧
    (∀ t p res, get_win_rate_by_ad_type t p = .ok res →
      ∀ ds ∈ res.datasets, ds.data.length = res.labels.length) ∧
    (∀ t p s, ∀ ds ∈ (get_ad_type_ratio t p s).datasets,
      ds.data.length = (get_ad_type_ratio t p s).labels.length) ∧
    (∀ t p s, ∀ ds ∈ (get_product_ratio t p s).datasets,
      ds.data.length = (get_product_ratio t p s).labels.length) ∧
    (∀ t p s, ∀ ds ∈ (get_format_ratio t p s).datasets,
      ds.data.length = (get_format_ratio t p s).labels.length) := by
  refine ⟨?_, ?_, ?_, ?_, ?_, ?_⟩
  · intro t p res h
    unfold get_win_rate_by_strategist at h
    split at h
    · cases h
      intro ds hds
      cases hds
    · exact winRateSliced_ok h
  · intro t p res h
    unfold get_win_rate_by_product at h
    split at h
    · cases h
      intro ds hds
      cases hds
    · exact fun ds hds => (winRateSliced_ok h ds hds).1
  · intro t p res h
    unfold get_win_rate_by_ad_type at h
    split at h
    · cases h
      intro ds hds
      cases hds
    · exact fun ds hds => (winRateSliced_ok h ds hds).1
  · intro t p s ds hds
    unfold get_ad_type_ratio countSliced at hds ⊢
    split at hds
    · cases hds
    · rename_i hguard
      rw [if_neg hguard]
      simp only [] at hds
      rcases List.mem_map.1 hds with ⟨v, hv, hdsv⟩
      subst hdsv
      simp [List.length_map]
  · intro t p s ds hds
    unfold get_product_ratio at hds ⊢
    split at hds
    · cases hds
    · rename_i hguard
      rw [if_neg hguard]
      simp only [] at hds
      rcases List.mem_map.1 hds with ⟨v, hv, hdsv⟩
      subst hdsv
      simp [List.length_map]
  · intro t p s ds hds
    unfold get_format_ratio countSliced at hds ⊢
    split at hds
    · cases hds
    · rename_i hguard
      rw [if_neg hguard]
      simp only [] at hds
      rcases List.mem_map.1 hds with ⟨v, hv, hdsv⟩
      subst hdsv
      simp [List.length_map]

/-- Witness for C6 at a concrete table: strategist B has no 2024-02 row, yet
both series have one entry per label and the empty cell holds 0. -/
theorem sliced_dataset_alignment_witness :
    get_win_rate_by_strategist w6Table "month" = .ok w6Res ∧
      ∀ ds ∈ w6Res.datasets,
        ds.data.length = w6Res.labels.length ∧
        ∀ (i : Nat) (hi : i < ds.data.length) (hl : i < w6Res.labels.length),
          (dateFiltered w6Table).filter (fun r =>
              periodCellIs (periodKeyRate w6Table.cols "month")
                (w6Res.labels.get ⟨i, hl⟩) r &&
              r.strategist = some ds.label) = [] →
          ds.data.get ⟨i, hi⟩ = 0 := by
  have hcomp : get_win_rate_by_strategist w6Table "month" = .ok w6Res := by decide
  exact ⟨hcomp, sliced_dataset_alignment.1 w6Table "month" w6Res hcomp⟩

theorem except_map_ok {ε α β : Type} {f : α → β} {x : Except ε α} {y : β} :
    (f <$> x) = .ok y ↔ ∃ a, x = .ok a ∧ f a = y := by
  cases x with
  | error e =>
    constructor
    · intro h
      cases h
    · rintro ⟨a, ha, _⟩
      cases ha
  | ok a =>
    constructor
    · intro h
      injection h with h2
      exact ⟨a, rfl, h2⟩
    · rintro ⟨b, hb, hf⟩
      injection hb with hb2
      subst hb2
      rw [← hf]
      rfl

theorem mem_uniqueFirstAux {α : Type} [DecidableEq α] :
    ∀ (l : List α) (seen : List α) (a : α),
      a ∈ uniqueFirstAux seen l ↔ (a ∈ l ∧ a ∉ seen) := by
  intro l
  induction l with
  | nil =>
    intro seen a
    simp [uniqueFirstAux]
  | cons b l ih =>
    intro seen a
    unfold uniqueFirstAux
    split
    · rename_i hb
      rw [ih]
      simp only [List.mem_cons]
      constructor
      · rintro ⟨h1, h2⟩
        exact ⟨Or.inr h1, h2⟩
      · rintro ⟨h1 | h1, h2⟩
        · subst h1
          exact absurd hb h2
        · exact ⟨h1, h2⟩
    · rename_i hb
      simp only [List.mem_cons, ih, List.mem_cons]
      constructor
      · rintro (rfl | ⟨h1, h2⟩)
        · exact ⟨Or.inl rfl, hb⟩
        · constructor
          · exact Or.inr h1
          · intro hc
            exact h2 (Or.inr hc)
      · rintro ⟨h1 | h1, h2⟩
        · exact Or.inl h1
        · by_cases hab : a = b
          · exact Or.inl hab
          · right
            refine ⟨h1, ?_⟩
            intro hc
            rcases hc with hc | hc
            · exact hab hc
            · exact h2 hc

theorem mem_uniqueFirst {α : Type} [DecidableEq α] {l : List α} {a : α} :
    a ∈ uniqueFirst l ↔ a ∈ l := by
  unfold uniqueFirst
  rw [mem_uniqueFirstAux]
  simp

theorem mem_groupbyKeys {rows : List Row} {key : Row → Option String} {k : String} :
    k ∈ groupbyKeys rows key ↔ ∃ r ∈ rows, key r = some k := by
  unfold groupbyKeys
  rw [List.mem_insertionSort, mem_uniqueFirst, List.mem_filterMap]

/-- The labels of a successful `get_win_rate_by_period` call all come from the
period key of some date-filtered row (vacuous in the guard branch). -/
theorem get_win_rate_by_period_label_mem {t : Table} {p : String}
    {res : SeriesOut ℚ} (h : get_win_rate_by_period t p = .ok res) :
    ∀ l ∈ res.labels, ∃ r ∈ dateFiltered t, periodKeyRate t.cols p r = some l := by
  unfold get_win_rate_by_period at h
  split at h
  · cases h
    intro l hl
    cases hl
  · rcases except_map_ok.1 h with ⟨pairs, hp, h2⟩
    subst h2
    intro l hl
    unfold sortPeriods at hl
    rw [List.mem_insertionSort] at hl
    exact mem_groupbyKeys.1 hl

/-- Conversely, with the guard passed, every period key of a date-filtered row
appears among the labels. -/
theorem get_win_rate_by_period_label_complete {t : Table} {p : String}
    {res : SeriesOut ℚ} (h : get_win_rate_by_period t p = .ok res)
    (hld : t.cols.hasLaunchDate = true) (hne : t.rows ≠ []) :
    ∀ r ∈ dateFiltered t, ∀ v, periodKeyRate t.cols p r = some v →
      v ∈ res.labels := by
  unfold get_win_rate_by_period at h
  split at h
  · rename_i hguard
    exfalso
    rw [hld] at hguard
    cases hr : t.rows with
    | nil => exact hne hr
    | cons a l =>
      rw [hr] at hguard
      simp at hguard
  · rcases except_map_ok.1 h with ⟨pairs, hp, h2⟩
    subst h2
    intro r hr v hv
    show v ∈ sortPeriods (groupbyKeys (dateFiltered t) (periodKeyRate t.cols p))
    unfold sortPeriods
    rw [List.mem_insertionSort]
    exact mem_groupbyKeys.2 ⟨r, hr, hv⟩

theorem periodKeyRatio_week_eq_month (c : Cols) :
    periodKeyRatio c "week" = periodKeyRatio c "month" := by
  funext r
  simp [periodKeyRatio]

/-- C7: each ratio breakdown requested at week granularity produces the very
same output as at month granularity (the week branch is the month branch for
these charts), while `get_win_rate_by_period` at week granularity uses
genuine week period keys — each label is some date-filtered row's
`Launch YY-WW` value when that column exists, otherwise the row's Launch Date
week period. -/
theorem ratio_week_collapses_rate_week_genuine :
    (∀ t s, get_ad_type_ratio t "week" s = get_ad_type_ratio t "month" s) ∧
    (∀ t s, get_product_ratio t "week" s = get_product_ratio t "month" s) ∧
    (∀ t s, get_format_ratio t "week" s = get_format_ratio t "month" s) ∧
    (∀ t res, t.cols.hasLaunchYYWW = true →
      get_win_rate_by_period t "week" = .ok res →
      ∀ l ∈ res.labels, ∃ r ∈ dateFiltered t, r.launchYYWW = some l) ∧
    (∀ t res, t.cols.hasLaunchYYWW = false →
      get_win_rate_by_period t "week" = .ok res →
      ∀ l ∈ res.labels, ∃ r ∈ dateFiltered t, ∃ d,
        r.launchDate = some d ∧ weekPeriodStr d = l) := by
  refine ⟨?_, ?_, ?_, ?_, ?_⟩
  · intro t s
    unfold get_ad_type_ratio countSliced
    rw [periodKeyRatio_week_eq_month]
  · intro t s
    unfold get_product_ratio
    rw [periodKeyRatio_week_eq_month]
  · intro t s
    unfold get_format_ratio countSliced
    rw [periodKeyRatio_week_eq_month]
  · intro t res hww h l hl
    rcases get_win_rate_by_period_label_mem h l hl with ⟨r, hr, hk⟩
    refine ⟨r, hr, ?_⟩
    unfold periodKeyRate at hk
    rw [if_pos rfl, if_pos hww] at hk
    exact hk
  · intro t res hww h l hl
    rcases get_win_rate_by_period_label_mem h l hl with ⟨r, hr, hk⟩
    refine ⟨r, hr, ?_⟩
    unfold periodKeyRate at hk
    rw [if_pos rfl, if_neg (by rw [hww]; exact Bool.false_ne_true)] at hk
    rcases hd : r.launchDate with _ | d
    · rw [hd] at hk
      cases hk
    · rw [hd] at hk
      injection hk with hk2
      exact ⟨d, rfl, hk2⟩

/-- Witness for C7: the week request on a table carrying `Launch YY-WW`
returns exactly that value as its label. -/
theorem ratio_week_collapses_rate_week_genuine_witness :
    w7Table.cols.hasLaunchYYWW = true ∧
      get_win_rate_by_period w7Table "week" = .ok ⟨["24-02"], [0]⟩ ∧
      (∀ l ∈ (⟨["24-02"], [0]⟩ : SeriesOut ℚ).labels,
        ∃ r ∈ dateFiltered w7Table, r.launchYYWW = some l) :=
  ⟨rfl, by decide,
   ratio_week_collapses_rate_week_genuine.2.2.2.1 w7Table ⟨["24-02"], [0]⟩ rfl
     (by decide)⟩

/-- C8 counterexample: in `get_win_rate_by_product` (a Product-dimension
output) a row with Product = `""` forms its own blank-label dataset — no
`"Unknown"` recoding happens there. -/
theorem win_rate_by_product_blank_bucket :
    get_win_rate_by_product w8Table "month" =
      .ok ⟨[some "2024-01"], [⟨"", [0]⟩]⟩ ∧ ("" : String) ≠ "Unknown" :=
  ⟨by decide, by decide⟩

/-- C8 (amended): the recoding holds in `get_product_ratio` — no dataset
there carries a blank label, and a filtered-in row with empty or missing
Product is grouped under a `"Unknown"` dataset — while
`get_win_rate_by_product` performs no such recoding (see the
counterexample). -/
theorem product_unknown_recoding :
    (∀ t p s, ∀ ds ∈ (get_product_ratio t p s).datasets, ds.label ≠ "") ∧
    (∀ t p s, t.cols.hasLaunchDate = true → t.cols.hasProduct = true →
      t.rows ≠ [] →
      ∀ r ∈ statusFiltered t.cols s (dateFiltered t),
        (r.product = none ∨ r.product = some "") →
        ∃ ds ∈ (get_product_ratio t p s).datasets, ds.label = "Unknown") := by
  constructor
  · intro t p s ds hds
    unfold get_product_ratio at hds
    split at hds
    · cases hds
    · simp only [] at hds
      rcases List.mem_map.1 hds with ⟨v, hv, hdsv⟩
      subst hdsv
      by_cases hve : v = ""
      · rw [if_pos hve]
        show ("Unknown" : String) ≠ ""
        decide
      · rw [if_neg hve]
        exact hve
  · intro t p s hld hpr hne r hr hempty
    have hguard : ¬(!t.cols.hasLaunchDate || !t.cols.hasProduct ||
        t.rows.isEmpty) = true := by
      rw [hld, hpr]
      cases hrows : t.rows with
      | nil => exact absurd hrows hne
      | cons a l => simp
    unfold get_product_ratio
    rw [if_neg hguard]
    simp only []
    have hfill : (productFilled r).product = some "Unknown" := by
      unfold productFilled
      rcases hempty with he | he <;> rw [he]
      rfl
    have hmemdf : productFilled r ∈
        (statusFiltered t.cols s (dateFiltered t)).map productFilled :=
      List.mem_map.2 ⟨r, hr, rfl⟩
    have hdim : "Unknown" ∈ uniqueFirst
        (((statusFiltered t.cols s (dateFiltered t)).map productFilled).filterMap
          (fun r2 => r2.product)) :=
      mem_uniqueFirst.2 (List.mem_filterMap.2 ⟨productFilled r, hmemdf, hfill⟩)
    refine ⟨_, List.mem_map.2 ⟨"Unknown", hdim, rfl⟩, ?_⟩
    rw [if_neg (by decide)]

/-- Witness for C8 (amended): the empty-Product row of `w8Table` lands in the
`"Unknown"` bucket of the product-ratio output. -/
theorem product_unknown_recoding_witness :
    w8Row ∈ statusFiltered w8Table.cols none (dateFiltered w8Table) ∧
      (∃ ds ∈ (get_product_ratio w8Table "month" none).datasets,
        ds.label = "Unknown") ∧
      get_product_ratio w8Table "month" none =
        ⟨[some "2024-01"], [⟨"Unknown", [1]⟩]⟩ :=
  ⟨by decide,
   product_unknown_recoding.2 w8Table "month" none rfl rfl (by decide)
     w8Row (by decide) (Or.inr (by decide)),
   by decide⟩

/-- C9 counterexample: a ratio breakdown requested at week granularity takes
its period keys from Launch Month, not from the present `Launch YY-WW`
column. -/
theorem ratio_week_ignores_launch_yyww :
    w9Table.cols.hasLaunchYYWW = true ∧
      get_ad_type_ratio w9Table "week" none =
        ⟨[some "2024-02"], [⟨"Video", [1]⟩]⟩ ∧
      ([some "2024-02"] : List (Option String)) ≠ [some "24-05"] :=
  ⟨rfl, by decide, by decide⟩

/-- C9 (amended): for the rate / time-series period derivation (here on the
cited `get_win_rate_by_period`), a month request with a Launch Month column
uses exactly the rows' Launch Month values verbatim as period keys — every
label is such a value and every such value of a date-filtered row appears —
and likewise a week request with a Launch YY-WW column; when the precomputed
column is absent the keys derive from Launch Date.  (Ratio breakdowns at week
granularity are the exception the counterexample shows: they use Launch
Month.) -/
theorem period_key_prefers_precomputed :
    (∀ t res, t.cols.hasLaunchMonth = true →
      get_win_rate_by_period t "month" = .ok res →
      (∀ l ∈ res.labels, ∃ r ∈ dateFiltered t, r.launchMonth = some l) ∧
      (t.cols.hasLaunchDate = true → t.rows ≠ [] →
        ∀ r ∈ dateFiltered t, ∀ v, r.launchMonth = some v → v ∈ res.labels)) ∧
    (∀ t res, t.cols.hasLaunchMonth = false →
      get_win_rate_by_period t "month" = .ok res →
      ∀ l ∈ res.labels, ∃ r ∈ dateFiltered t, ∃ d, r.launchDate = some d ∧
        monthPeriodStr d = l) ∧
    (∀ t res, t.cols.hasLaunchYYWW = true →
      get_win_rate_by_period t "week" = .ok res →
      (∀ l ∈ res.labels, ∃ r ∈ dateFiltered t, r.launchYYWW = some l) ∧
      (t.cols.hasLaunchDate = true → t.rows ≠ [] →
        ∀ r ∈ dateFiltered t, ∀ v, r.launchYYWW = some v → v ∈ res.labels)) ∧
    (∀ t res, t.cols.hasLaunchYYWW = false →
      get_win_rate_by_period t "week" = .ok res →
      ∀ l ∈ res.labels, ∃ r ∈ dateFiltered t, ∃ d, r.launchDate = some d ∧
        weekPeriodStr d = l) := by
  refine ⟨?_, ?_, ?_, ?_⟩
  · intro t res hlm h
    constructor
    · intro l hl
      rcases get_win_rate_by_period_label_mem h l hl with ⟨r, hr, hk⟩
      refine ⟨r, hr, ?_⟩
      unfold periodKeyRate at hk
      rw [if_neg (by decide), if_neg (by decide), if_pos hlm] at hk
      exact hk
    · intro hld hne r hr v hv
      refine get_win_rate_by_period_label_complete h hld hne r hr v ?_
      unfold periodKeyRate
      rw [if_neg (by decide), if_neg (by decide), if_pos hlm]
      exact hv
  · intro t res hlm h l hl
    rcases get_win_rate_by_period_label_mem h l hl with ⟨r, hr, hk⟩
    refine ⟨r, hr, ?_⟩
    unfold periodKeyRate at hk
    rw [if_neg (by decide), if_neg (by decide),
      if_neg (by rw [hlm]; exact Bool.false_ne_true)] at hk
    rcases hd : r.launchDate with _ | d
    · rw [hd] at hk
      cases hk
    · rw [hd] at hk
      injection hk with hk2
      exact ⟨d, rfl, hk2⟩
  · intro t res hww h
    constructor
    · intro l hl
      rcases get_win_rate_by_period_label_mem h l hl with ⟨r, hr, hk⟩
      refine ⟨r, hr, ?_⟩
      unfold periodKeyRate at hk
      rw [if_pos rfl, if_pos hww] at hk
      exact hk
    · intro hld hne r hr v hv
      refine get_win_rate_by_period_label_complete h hld hne r hr v ?_
      unfold periodKeyRate
      rw [if_pos rfl, if_pos hww]
      exact hv
  · intro t res hww h l hl
    rcases get_win_rate_by_period_label_mem h l hl with ⟨r, hr, hk⟩
    refine ⟨r, hr, ?_⟩
    unfold periodKeyRate at hk
    rw [if_pos rfl, if_neg (by rw [hww]; exact Bool.false_ne_true)] at hk
    rcases hd : r.launchDate with _ | d
    · rw [hd] at hk
      cases hk
    · rw [hd] at hk
      injection hk with hk2
      exact ⟨d, rfl, hk2⟩

/-- Witness for C9 at a concrete table: the month labels are exactly the
verbatim Launch Month value. -/
theorem period_key_prefers_precomputed_witness :
    w9bTable.cols.hasLaunchMonth = true ∧
      get_win_rate_by_period w9bTable "month" = .ok ⟨["2024-03"], [0]⟩ ∧
      (∀ l ∈ (⟨["2024-03"], [0]⟩ : SeriesOut ℚ).labels,
        ∃ r ∈ dateFiltered w9bTable, r.launchMonth = some l) :=
  ⟨rfl, by decide,
   (period_key_prefers_precomputed.1 w9bTable ⟨["2024-03"], [0]⟩ rfl (by decide)).1⟩
